import Mathlib

/-!
Verification development for the Windows desktop utility's two specified
logic units: the timed website blocker ("student mode") and the Windows
Prefetch forensic parser, both embedded from src/main.js.

Strings are modelled by Lean String (a wrapper around List Char); the
hosts file is modelled as its list of lines (the split of the file text
on the newline character, which is exactly how src/main.js manipulates
it: substring checks never involve a newline, so a substring check on
the whole text is equivalent to a substring check on some line).
-/

namespace Mark2

/-- Sequence containment: xs is a contiguous run at the front of ys. -/
def startsWithSeq {α : Type} [DecidableEq α] : List α → List α → Bool
  | [], _ => true
  | _ :: _, [] => false
  | x :: xs, y :: ys => x = y && startsWithSeq xs ys

/-- Sequence containment: xs occurs contiguously somewhere in ys
(JavaScript String.prototype.includes on the underlying characters). -/
def containsSeq {α : Type} [DecidableEq α] : List α → List α → Bool
  | xs, [] => xs.isEmpty
  | xs, y :: ys => startsWithSeq xs (y :: ys) || containsSeq xs ys

/-- JavaScript hay.includes(sub). -/
def strIncludes (hay sub : String) : Bool := containsSeq sub.data hay.data

/-- JavaScript s.startsWith(p). -/
def strStartsWith (s p : String) : Bool := startsWithSeq p.data s.data

/-- JavaScript s.endsWith(p). -/
def strEndsWith (s p : String) : Bool := startsWithSeq p.data.reverse s.data.reverse

/-- JavaScript s.toLowerCase() (ASCII range, which is all the code uses). -/
def lowerStr (s : String) : String := ⟨s.data.map Char.toLower⟩

/-- JavaScript s.trim(). -/
def trimStr (s : String) : String :=
  ⟨((s.data.dropWhile Char.isWhitespace).reverse.dropWhile Char.isWhitespace).reverse⟩

/-- Drop the first n characters of a string. -/
def dropStr (s : String) (n : Nat) : String := ⟨s.data.drop n⟩

/--
URL canonicalisation shared by blockWebsite / blockWebsiteDeep / unblockWebsite
(src/main.js lines 1083-1085, 1180-1182, 1295-1297):
trim, lowercase, strip a leading http:// or https:// scheme, strip a leading
"www.", and keep only the part before the first slash.
-/
def cleanUrl (url : String) : String :=
  let s := lowerStr (trimStr url)
  let s := if strStartsWith s "https://" then dropStr s 8
           else if strStartsWith s "http://" then dropStr s 7 else s
  let s := if strStartsWith s "www." then dropStr s 4 else s
  ⟨s.data.takeWhile (fun c => c ≠ '/')⟩

/-- hostsContent.includes(sub), for a hosts file given by its lines and a
needle that contains no newline. -/
def hostsIncludes (lines : List String) (sub : String) : Bool :=
  lines.any (fun l => strIncludes l sub)

/- ===== Student-mode timer registry and scheduler model ===== -/

/-- One entry of the studentModeTimers Map (src/main.js lines 2295-2300, 2325).
The timeoutId field is the handle of the setTimeout scheduled at creation. -/
structure TimerData where
  websiteUrl : String
  duration : String
  endTime : Int
  startTime : Int
  timeoutId : Nat
deriving DecidableEq

/-- A pending setTimeout: its handle, the raw URL its callback closes over,
and the instant it is due to fire. -/
structure ScheduledTask where
  id : Nat
  websiteUrl : String
  fireAt : Int
deriving DecidableEq

/-- The process-wide mutable state the blocker touches: the hosts file
(as lines), the studentModeTimers Map (association list in insertion
order, keys unique), the pending setTimeout handles, a fresh-handle
counter, and the log of student-mode-timer-expired events sent to
windows (one list element per webContents.send). -/
structure SMState where
  hosts : List String
  timers : List (String × TimerData)
  scheduled : List ScheduledTask
  nextId : Nat
  expiredEvents : List String
deriving DecidableEq

/-- External facts the blocker consults: whether the process is elevated,
how many BrowserWindows are open, and whether the fs operations inside
blockWebsiteDeep's deep-entry section throw (modelling an fs failure). -/
structure Env where
  admin : Bool
  windows : Nat
  deepFails : Bool
deriving DecidableEq

/-- Map.get. -/
def lookupAssoc : List (String × TimerData) → String → Option TimerData
  | [], _ => none
  | (k, v) :: rest, key => if k = key then some v else lookupAssoc rest key

/-- Map.set: replace in place if the key exists, else append. -/
def setAssoc : List (String × TimerData) → String → TimerData → List (String × TimerData)
  | [], k, v => [(k, v)]
  | (k', v') :: rest, k, v =>
    if k' = k then (k, v) :: rest else (k', v') :: setAssoc rest k v

/-- Map.delete. -/
def eraseAssoc : List (String × TimerData) → String → List (String × TimerData)
  | [], _ => []
  | (k', v') :: rest, k =>
    if k' = k then eraseAssoc rest k else (k', v') :: eraseAssoc rest k

/-- JavaScript truncating % (sign of the dividend). -/
def jsMod (a b : Int) : Int := Int.tmod a b

/-- formatTimeRemaining (src/main.js lines 2426-2442). Math.floor(a/b) is
floor division, % is JavaScript's truncating remainder. -/
def formatTimeRemaining (ms : Int) : String :=
  let totalSeconds := Int.fdiv ms 1000
  let days := Int.fdiv totalSeconds (24 * 3600)
  let hours := Int.fdiv (jsMod totalSeconds (24 * 3600)) 3600
  let minutes := Int.fdiv (jsMod totalSeconds 3600) 60
  let seconds := jsMod totalSeconds 60
  if days > 0 then
    toString days ++ "d " ++ toString hours ++ "h " ++ toString minutes ++ "m " ++
      toString seconds ++ "s"
  else if hours > 0 then
    toString hours ++ "h " ++ toString minutes ++ "m " ++ toString seconds ++ "s"
  else if minutes > 0 then
    toString minutes ++ "m " ++ toString seconds ++ "s"
  else
    toString seconds ++ "s"

/-- parseDuration (src/main.js lines 2259-2269); unknown symbols map to 0. -/
def parseDuration (d : String) : Nat :=
  if d = "10sec" then 10 * 1000
  else if d = "12hr" then 12 * 60 * 60 * 1000
  else if d = "1d" then 24 * 60 * 60 * 1000
  else if d = "2d" then 2 * 24 * 60 * 60 * 1000
  else if d = "3d" then 3 * 24 * 60 * 60 * 1000
  else if d = "7d" then 7 * 24 * 60 * 60 * 1000
  else 0

/-- The lines blockWebsite appends for domain c: the marker comment, the
four binding lines, and the empty line left by the trailing newline. -/
def blockLines (c : String) : List String :=
  ["# # Blocked by Technician App",
   "127.0.0.1 " ++ c, "127.0.0.1 www." ++ c,
   "0.0.0.0 " ++ c, "0.0.0.0 www." ++ c, ""]

/--
blockWebsite (src/main.js lines 1066-1166). Returns the resolved message or
the rejection message, together with the state after the call. Appending
the entries text "\n# marker\n(4 lines)\n" to the hosts text corresponds,
on the line model, to appending the marker line, the four entry lines and a
final empty line. The entries list's first element is "\n# " followed by
the marker text "# Blocked by Technician App", hence the doubled "# #".
-/
def blockWebsite (env : Env) (st : SMState) (websiteUrl : String) :
    Except String String × SMState :=
  if !env.admin then
    (.error "Administrator privileges required to block websites", st)
  else if websiteUrl = "" then (.error "Invalid website URL", st)
  else
    let c := cleanUrl websiteUrl
    if c = "" then (.error "Invalid website URL format", st)
    else if hostsIncludes st.hosts ("127.0.0.1 " ++ c) ||
        hostsIncludes st.hosts ("127.0.0.1 www." ++ c) then
      (.ok ("Website \"" ++ c ++ "\" is already blocked"), st)
    else
      (.ok ("Website \"" ++ c ++
          "\" has been blocked using the system hosts file. Changes take effect immediately."),
        { st with hosts := st.hosts ++ blockLines c })

/--
blockWebsiteDeep (src/main.js lines 1169-1282). Calls blockWebsite on the
cleaned URL, then tries to add six deep-block lines — but only when none of
the six target hostname strings already occurs in the hosts text, and the
basic block just inserted the bare domain, so the deep lines are in fact
never added after a successful basic block. The DNS command sequence only
logs failures and touches no modelled state. If the deep-entry fs section
throws (env.deepFails), the catch resolves with a basic-level success.
-/
def blockWebsiteDeep (env : Env) (st : SMState) (websiteUrl : String) :
    Except String String × SMState :=
  if !env.admin then
    (.error "Administrator privileges required to block websites", st)
  else
    let c := cleanUrl websiteUrl
    if c = "" then (.error "Invalid website URL format", st)
    else
      match blockWebsite env st c with
      | (.error e, st') => (.error ("Failed to deep block website: " ++ e), st')
      | (.ok _, st') =>
        if env.deepFails then
          (.ok ("Website \"" ++ c ++
              "\" has been blocked (basic level due to deep blocking error)."), st')
        else
          let targets := [c, "www." ++ c, c, "www." ++ c, "*." ++ c, "*." ++ c]
          let deepBlockExists := targets.any (fun t => hostsIncludes st'.hosts t)
          let st'' :=
            if deepBlockExists then st'
            else { st' with hosts := st'.hosts ++
              ["", "# Student Mode Deep Blocking Entries",
               "0.0.0.0 " ++ c ++ " # Student Mode Deep Block",
               "0.0.0.0 www." ++ c ++ " # Student Mode Deep Block",
               "127.0.0.1 " ++ c ++ " # Student Mode Deep Block",
               "127.0.0.1 www." ++ c ++ " # Student Mode Deep Block",
               "0.0.0.0 *." ++ c ++ " # Student Mode Deep Block",
               "127.0.0.1 *." ++ c ++ " # Student Mode Deep Block", ""] }
          (.ok ("Website \"" ++ c ++
              "\" has been deeply blocked for student mode. All browser access is prevented."),
            st'')

/-- The per-line removal test of unblockWebsite (src/main.js lines 1339-1353):
the trimmed line mentions one of the blocked host forms and is not a comment. -/
def shouldRemoveLine (c : String) (line : String) : Bool :=
  let t := trimStr line
  (strIncludes t ("127.0.0.1 " ++ c) || strIncludes t ("127.0.0.1 www." ++ c) ||
   strIncludes t ("0.0.0.0 " ++ c) || strIncludes t ("0.0.0.0 www." ++ c) ||
   strIncludes t ("*." ++ c) ||
   (strIncludes t "Student Mode Deep Block" && strIncludes t c)) &&
  !strStartsWith t "#"

/-- The deep-block comment-line test of unblockWebsite (src/main.js lines 1356-1360). -/
def isDeepComment (line : String) : Bool :=
  let t := trimStr line
  strIncludes t "Student Mode Deep Blocking Entries" ||
    (strStartsWith t "#" && strIncludes t "Student Mode Deep Block")

/--
unblockWebsite (src/main.js lines 1284-1404). The student-mode guard looks
the canonical URL up in the timer registry and rejects with the remaining
time whenever an entry exists. Otherwise matching lines are filtered out;
zero removals resolve with a not-found message and leave the file unwritten.
-/
def unblockWebsite (env : Env) (now : Int) (st : SMState) (websiteUrl : String) :
    Except String String × SMState :=
  if !env.admin then
    (.error "Administrator privileges required to unblock websites", st)
  else
    let c := cleanUrl websiteUrl
    if c = "" then (.error "Invalid website URL format", st)
    else
      match lookupAssoc st.timers c with
      | some timerData =>
        let remainingMs := timerData.endTime - now
        (.error ("Cannot unblock \"" ++ c ++ "\" - Student mode is active! Time remaining: " ++
            formatTimeRemaining remainingMs ++
            ". The website will automatically unblock when the timer expires."), st)
      | none =>
        let removedCount := (st.hosts.filter (fun l => shouldRemoveLine c l)).length
        let kept := st.hosts.filter (fun l => !shouldRemoveLine c l && !isDeepComment l)
        if removedCount = 0 then
          (.ok ("Website \"" ++ c ++
              "\" was not found in the hosts file or was already unblocked"), st)
        else
          (.ok ("Website \"" ++ c ++ "\" has been unblocked. Removed " ++
              toString removedCount ++ " entries from hosts file."),
            { st with hosts := kept })

/-- The value blockWebsiteStudentMode resolves with (src/main.js lines 2327-2332). -/
structure StudentBlockResult where
  message : String
  endTime : Int
  duration : String
deriving DecidableEq

/--
blockWebsiteStudentMode (src/main.js lines 2272-2339). After a successful
deep block it stores a registry entry keyed by the RAW websiteUrl argument
(not the canonical domain), schedules the expiry timeout, and records the
timeout handle in the entry. A previous pending timeout for the same key
is not cleared.
-/
def blockWebsiteStudentMode (env : Env) (now : Int) (st : SMState)
    (websiteUrl duration : String) : Except String StudentBlockResult × SMState :=
  if !env.admin then
    (.error "Administrator privileges required to block websites in student mode", st)
  else
    let durationMs := parseDuration duration
    if durationMs = 0 then (.error "Invalid duration specified", st)
    else
      match blockWebsiteDeep env st websiteUrl with
      | (.error e, st') => (.error ("Failed to block website in student mode: " ++ e), st')
      | (.ok _, st') =>
        let endTime := now + (durationMs : Int)
        let td : TimerData :=
          { websiteUrl := websiteUrl, duration := duration, endTime := endTime,
            startTime := now, timeoutId := st'.nextId }
        (.ok { message := "Website \"" ++ websiteUrl ++ "\" blocked in student mode for " ++ duration,
               endTime := endTime, duration := duration },
          { st' with
            timers := setAssoc st'.timers websiteUrl td,
            scheduled := st'.scheduled ++
              [{ id := st'.nextId, websiteUrl := websiteUrl, fireAt := endTime }],
            nextId := st'.nextId + 1 })

/--
The body of the setTimeout callback scheduled by blockWebsiteStudentMode
(src/main.js lines 2306-2322), run when the task fires at instant now:
the fired handle stops being pending; then the callback awaits
unblockWebsite on the raw URL and, only if that resolves, deletes the
registry entry and broadcasts student-mode-timer-expired to every open
window; a rejection is caught and merely logged.
-/
def fireExpiry (env : Env) (now : Int) (st : SMState) (task : ScheduledTask) : SMState :=
  let st0 := { st with scheduled := st.scheduled.filter (fun t => t.id ≠ task.id) }
  match unblockWebsite env now st0 task.websiteUrl with
  | (.ok _, st1) =>
    { st1 with
      timers := eraseAssoc st1.timers task.websiteUrl,
      expiredEvents := st1.expiredEvents ++ List.replicate env.windows task.websiteUrl }
  | (.error _, st1) => st1

/--
cancelStudentMode (src/main.js lines 2388-2423): looks the RAW url up,
clears the stored timeout, deletes the registry entry, then awaits
unblockWebsite; its rejection is caught and re-reported.
-/
def cancelStudentMode (env : Env) (now : Int) (st : SMState) (websiteUrl : String) :
    Except String String × SMState :=
  match lookupAssoc st.timers websiteUrl with
  | none => (.error ("No active student mode timer found for " ++ websiteUrl), st)
  | some timerData =>
    let st1 := { st with
      scheduled := st.scheduled.filter (fun t => t.id ≠ timerData.timeoutId),
      timers := eraseAssoc st.timers websiteUrl }
    match unblockWebsite env now st1 websiteUrl with
    | (.error e, st2) => (.error ("Failed to cancel student mode: " ++ e), st2)
    | (.ok _, st2) =>
      (.ok ("Student mode cancelled for \"" ++ websiteUrl ++ "\". Website is now accessible."),
        st2)

/-- One snapshot in getStudentModeStatus's activeTimers (src/main.js lines 2352-2359). -/
structure TimerSnapshot where
  websiteUrl : String
  duration : String
  startTime : Int
  endTime : Int
  remainingMs : Int
  remainingFormatted : String
deriving DecidableEq

/-- The registry walk of getStudentModeStatus: returns the snapshots of the
entries with time left, the surviving registry entries, and the timeout
handles cleared for the stale ones. -/
def statusLoop (now : Int) :
    List (String × TimerData) →
      List TimerSnapshot × List (String × TimerData) × List Nat
  | [] => ([], [], [])
  | (url, td) :: rest =>
    let (snaps, keep, cleared) := statusLoop now rest
    if td.endTime - now > 0 then
      ({ websiteUrl := url, duration := td.duration, startTime := td.startTime,
         endTime := td.endTime, remainingMs := td.endTime - now,
         remainingFormatted := formatTimeRemaining (td.endTime - now) } :: snaps,
       (url, td) :: keep, cleared)
    else
      (snaps, keep, td.timeoutId :: cleared)

/--
getStudentModeStatus (src/main.js lines 2342-2385): entries with
remaining ≤ 0 get their timeout cleared and are deleted from the registry
as a side effect; the rest are returned annotated. The result carries
activeTimers and count.
-/
def getStudentModeStatus (now : Int) (st : SMState) :
    (List TimerSnapshot × Nat) × SMState :=
  let (snaps, keep, cleared) := statusLoop now st.timers
  ((snaps, snaps.length),
   { st with
     timers := keep,
     scheduled := st.scheduled.filter (fun t => !cleared.contains t.id) })

/- ===== Prefetch analyzer model ===== -/

/-- Stat information for a file, in Unix milliseconds; birthtime may be
absent (the code falls back to mtime through a truthiness check). -/
structure FileStats where
  mtime : Int
  birthtime : Option Int
deriving DecidableEq

/-- One volumeInfo element (src/main.js lines 2680-2684). -/
structure VolumeInfo where
  volumePath : String
  volumeSerial : String
  creationTime : Int
deriving DecidableEq

/-- The record parsePrefetchFileBuffer returns (src/main.js lines 2736-2749).
Timestamps are Unix milliseconds. -/
structure PrefetchRecord where
  executableName : String
  runCount : Nat
  lastRunTimes : List Int
  filePaths : List String
  volumeInfo : List VolumeInfo
  size : Nat
  prefetchPath : String
  hash : String
  fileCreated : Int
  fileModified : Int
  version : Nat
  isCurrentlyRunning : Bool
deriving DecidableEq

/-- External facilities parsePrefetchFileBuffer consults: the result of the
UTF-16 decode plus RegExp scan of the raw buffer for absolute paths
(src/main.js lines 2664-2665; none models a null match result), and the
isProcessRunning probe, which resolves a Boolean and never throws. -/
structure ParseEnv where
  pathMatches : List Nat → Option (List String)
  running : String → Bool

/-- DataView.getUint32(off, true): little-endian, throws (none) when the
read would pass the end of the buffer. -/
def readU32le (buf : List Nat) (off : Nat) : Option Nat :=
  if off + 4 ≤ buf.length then
    some (buf.getD off 0 + buf.getD (off + 1) 0 * 256 +
      buf.getD (off + 2) 0 * 65536 + buf.getD (off + 3) 0 * 16777216)
  else none

/-- DataView.getBigUint64(off, true). -/
def readU64le (buf : List Nat) (off : Nat) : Option Nat :=
  if off + 8 ≤ buf.length then
    some (buf.getD off 0 + buf.getD (off + 1) 0 * 256 +
      buf.getD (off + 2) 0 * 65536 + buf.getD (off + 3) 0 * 16777216 +
      buf.getD (off + 4) 0 * 4294967296 + buf.getD (off + 5) 0 * 1099511627776 +
      buf.getD (off + 6) 0 * 281474976710656 + buf.getD (off + 7) 0 * 72057594037927936)
  else none

/-- The calendar year (proleptic Gregorian, UTC) of a Unix-millisecond
instant, as Date.prototype.getFullYear computes it; Math.floor-style
divisions throughout. -/
def yearOfEpochMs (t : Int) : Int :=
  let z := Int.fdiv t 86400000 + 719468
  let era := Int.fdiv z 146097
  let doe := z - era * 146097
  let yoe := Int.fdiv (doe - Int.fdiv doe 1460 + Int.fdiv doe 36524 - Int.fdiv doe 146096) 365
  let y := yoe + era * 400
  let doy := doe - (365 * yoe + Int.fdiv yoe 4 - Int.fdiv yoe 100)
  let mp := Int.fdiv (5 * doy + 2) 153
  let m := if mp < 10 then mp + 3 else mp - 9
  if m ≤ 2 then y + 1 else y

/--
windowsFileTimeToDate (src/main.js lines 2761-2787): BigInt-divide the tick
count by 10000, reject when the millisecond value underflows the Unix
epoch, build a Date (invalid — NaN — above the ECMAScript range of
8.64e15 ms) and reject when the year falls outside [1970, 2050]. Returns
the Unix-millisecond value of the Date.
-/
def windowsFileTimeToDate (filetime : Nat) : Option Int :=
  let ms := filetime / 10000
  if ms < 11644473600000 then none
  else
    let unixMs : Int := (ms : Int) - 11644473600000
    if unixMs > 8640000000000000 then none
    else
      let y := yearOfEpochMs unixMs
      if y < 1970 ∨ y > 2050 then none
      else some unixMs

/-- The filter applied to each decoded run timestamp (src/main.js
lines 2623-2628): ignore zero values, conversion failures, and dates in or
before 1970. -/
def acceptRunTime (ts : Nat) : Option Int :=
  if ts > 0 then
    match windowsFileTimeToDate ts with
    | some d => if yearOfEpochMs d > 1970 then some d else none
    | none => none
  else none

/-- The version ≥ 26 timestamp loop (src/main.js lines 2618-2634): slots
0x80 + i*8 for i below the count, each read guarded by a bounds check. -/
def collectRunTimes (buf : List Nat) : Nat → Nat → List Int
  | _, 0 => []
  | i, n + 1 =>
    let rest := collectRunTimes buf (i + 1) n
    if 0x80 + i * 8 + 8 ≤ buf.length then
      match readU64le buf (0x80 + i * 8) with
      | some ts =>
        match acceptRunTime ts with
        | some d => d :: rest
        | none => rest
      | none => rest
    else rest

/-- The single-timestamp read for versions below 26 (src/main.js
lines 2636-2647); a read past the end throws and is caught, leaving the
list empty. -/
def oldVersionRunTimes (buf : List Nat) : List Int :=
  match readU64le buf 0x80 with
  | some ts =>
    match acceptRunTime ts with
    | some d => [d]
    | none => []
  | none => []

/-- An 8-hex-digit uppercase rendering of a 32-bit value
(value.toString(16).toUpperCase().padStart(8, '0'); the accepted range
forces exactly 8 digits). -/
def toHex8 (v : Nat) : String :=
  let digit := fun (n : Nat) =>
    if n < 10 then Char.ofNat (48 + n) else Char.ofNat (55 + n)
  ⟨[digit (v / 268435456 % 16), digit (v / 16777216 % 16),
    digit (v / 1048576 % 16), digit (v / 65536 % 16),
    digit (v / 4096 % 16), digit (v / 256 % 16),
    digit (v / 16 % 16), digit (v % 16)]⟩

/-- The scan step of extractVolumeSerial: strides of 4 from offset i while
i < min(buffer.length - 4, 200), fuelled (the bound is at most 200, so 51
steps always suffice). -/
def volumeSerialScan (buf : List Nat) : Nat → Nat → Option String
  | _, 0 => none
  | i, fuel + 1 =>
    if (i : Int) < min ((buf.length : Int) - 4) 200 then
      match readU32le buf i with
      | some v =>
        if 0x10000000 < v ∧ v < 0xFFFFFFFF then some (toHex8 v)
        else volumeSerialScan buf (i + 4) fuel
      | none => none
    else none

/-- extractVolumeSerial (src/main.js lines 2792-2813). -/
def extractVolumeSerial (buf : List Nat) : Option String :=
  volumeSerialScan buf 0 51

/-- [A-F0-9] under the regex i flag. -/
def isHexChar (c : Char) : Bool :=
  c.isDigit || ('A' ≤ c ∧ c ≤ 'F') || ('a' ≤ c ∧ c ≤ 'f')

/-- The match of /^(.+?)-[A-F0-9]{8}\.pf$/i against the filename: the tail
is 13 characters long and anchored, so the stem is forced to be everything
before it and must be nonempty. Returns the stem. -/
def pfStem (filename : String) : Option String :=
  match filename.data.reverse with
  | f :: p :: d :: h1 :: h2 :: h3 :: h4 :: h5 :: h6 :: h7 :: h8 :: '-' :: stemRev =>
    if (f = 'f' || f = 'F') && (p = 'p' || p = 'P') && d = '.' &&
        [h1, h2, h3, h4, h5, h6, h7, h8].all isHexChar && !stemRev.isEmpty then
      some ⟨stemRev.reverse⟩
    else none
  | _ => none

/-- The hash capture (the 8 hex characters between the final dash and the
.pf suffix, case-insensitive, kept in original order and case) from the
filename (src/main.js lines 2719-2720). -/
def pfHashCapture (filename : String) : Option String :=
  match filename.data.reverse with
  | f :: p :: d :: h1 :: h2 :: h3 :: h4 :: h5 :: h6 :: h7 :: h8 :: '-' :: _ =>
    if (f = 'f' || f = 'F') && (p = 'p' || p = 'P') && d = '.' &&
        [h1, h2, h3, h4, h5, h6, h7, h8].all isHexChar then
      some ⟨[h8, h7, h6, h5, h4, h3, h2, h1]⟩
    else none
  | _ => none

/-- filename.replace(/\.pf$/i, ''). -/
def stripPfExt (filename : String) : String :=
  match filename.data.reverse with
  | f :: p :: d :: rest =>
    if (f = 'f' || f = 'F') && (p = 'p' || p = 'P') && d = '.' then ⟨rest.reverse⟩
    else filename
  | _ => filename

/-- A JavaScript word character as \w sees it. -/
def isWordChar (c : Char) : Bool := c.isAlpha || c.isDigit || c = '_'

/-- s.replace(/\b\w/g, l => l.toUpperCase()): uppercase every word
character that does not follow a word character. -/
def titleCaseChars : Bool → List Char → List Char
  | _, [] => []
  | prevWord, c :: rest =>
    let c' := if isWordChar c && !prevWord then c.toUpper else c
    c' :: titleCaseChars (isWordChar c) rest

/-- The formatExecutableName closure (src/main.js lines 2726-2734). -/
def formatExecutableName (name : String) : String :=
  let s := lowerStr name
  let s := if strEndsWith s ".exe" then ⟨s.data.take (s.data.length - 4)⟩ else s
  let s : String := ⟨s.data.map (fun c => if c = '-' || c = '_' then ' ' else c)⟩
  trimStr ⟨titleCaseChars false s.data⟩

/-- The fallback path list (src/main.js lines 2654-2661). -/
def commonPaths (e : String) : List String :=
  ["C:\\Program Files\\" ++ e ++ "\\" ++ e ++ ".exe",
   "C:\\Program Files (x86)\\" ++ e ++ "\\" ++ e ++ ".exe",
   "C:\\Windows\\System32\\" ++ e ++ ".exe",
   "C:\\Windows\\System32\\kernel32.dll",
   "C:\\Windows\\System32\\ntdll.dll",
   "C:\\Windows\\System32\\user32.dll"]

/-- Spread of a Set built from a list: keep first occurrences. -/
def dedupFirstAux (seen : List String) : List String → List String
  | [] => []
  | x :: xs =>
    if seen.contains x then dedupFirstAux seen xs
    else x :: dedupFirstAux (x :: seen) xs

/-- Spread of a Set built from a list: keep first occurrences. -/
def dedupFirst (l : List String) : List String := dedupFirstAux [] l

/-- Descending numeric sort, as the stable Array.prototype.sort with
comparator (a, b) => b - a produces. -/
def sortDescInt (l : List Int) : List Int :=
  List.insertionSort (fun a b => b ≤ a) l

/--
The body of the inner try of parsePrefetchFileBuffer (src/main.js
lines 2602-2716): run count at 0xD0 (version ≥ 26) or 0x90; timestamps;
file paths (regex matches or the synthesized defaults); volume info; then
the at-least-one-run-time and run-count-range fixups. A throwing run-count
read reaches the catch, which substitutes full fallback data.
Returns (runCount, lastRunTimes, filePaths, volumeInfo).
-/
def parsePrefetchInner (env : ParseEnv) (buf : List Nat) (version : Nat)
    (executableName : String) (stats : FileStats) :
    Nat × List Int × List String × List VolumeInfo :=
  match readU32le buf (if version ≥ 26 then 0xD0 else 0x90) with
  | none =>
    (1, [stats.mtime], ["C:\\Windows\\System32\\" ++ executableName ++ ".exe"],
     [{ volumePath := "C:\\", volumeSerial := "Unknown",
        creationTime := stats.birthtime.getD stats.mtime }])
  | some rawCount =>
    let times0 :=
      if version ≥ 26 then collectRunTimes buf 0 (min 8 rawCount)
      else oldVersionRunTimes buf
    let filePaths :=
      match env.pathMatches buf with
      | some (p :: ps) => dedupFirst (p :: ps)
      | _ => commonPaths executableName
    let vols : List VolumeInfo :=
      [{ volumePath := "C:\\",
         volumeSerial := (extractVolumeSerial buf).getD "Unknown",
         creationTime := stats.birthtime.getD stats.mtime }]
    let times := if times0.isEmpty then [stats.mtime] else times0
    let runCount :=
      if rawCount = 0 ∨ rawCount > 10000 then
        (if times.length = 0 then 1 else times.length)
      else rawCount
    (runCount, times, filePaths, vols)

/--
parsePrefetchFileBuffer (src/main.js lines 2579-2755). The only statement
that can throw outside the inner try is the version read at offset 0 (a
DataView range error on a buffer shorter than 4 bytes); the outer catch
turns it into null. Everything else degrades to fallbacks.
-/
def parsePrefetchFileBuffer (env : ParseEnv) (buf : List Nat) (filename : String)
    (stats : FileStats) : Option PrefetchRecord :=
  match readU32le buf 0 with
  | none => none
  | some version =>
    let stem := (pfStem filename).getD (stripPfExt filename)
    let (runCount, times, paths, vols) := parsePrefetchInner env buf version stem stats
    some {
      executableName := formatExecutableName stem,
      runCount := runCount,
      lastRunTimes := sortDescInt times,
      filePaths := paths.take 20,
      volumeInfo := vols,
      size := buf.length,
      prefetchPath := filename,
      hash := (pfHashCapture filename).getD "Unknown",
      fileCreated := stats.birthtime.getD stats.mtime,
      fileModified := stats.mtime,
      version := version,
      isCurrentlyRunning := env.running stem }

/-- One directory entry observed by getPrefetchFiles: the filename and
either the bytes-plus-stats read for it or none when statSync/readFileSync
throws (the per-file catch swallows that and skips the file). -/
structure DirEntry where
  name : String
  content : Option (List Nat × FileStats)

/-- The value getPrefetchFiles resolves with. Fields absent from a given
resolve call are none. -/
structure PrefetchResult where
  success : Bool
  data : List PrefetchRecord
  error : Option String
  message : Option String
  totalFiles : Option Nat
  processedFiles : Option Nat

/-- file.toLowerCase().endsWith('.pf'). -/
def isPfName (name : String) : Bool := strEndsWith (lowerStr name) ".pf"

/-- The per-file loop of getPrefetchFiles (src/main.js lines 2489-2515):
skip files whose read throws, push parsed records, count successes, and
break once the success count reaches 100. -/
def processLoop (env : ParseEnv) : List DirEntry → Nat → List PrefetchRecord × Nat
  | [], c => ([], c)
  | e :: rest, c =>
    match e.content with
    | none => processLoop env rest c
    | some (buf, stats) =>
      match parsePrefetchFileBuffer env buf e.name stats with
      | some r =>
        if c + 1 ≥ 100 then ([r], c + 1)
        else
          let (rs, cf) := processLoop env rest (c + 1)
          (r :: rs, cf)
      | none =>
        if c ≥ 100 then ([], c)
        else processLoop env rest c

/-- Math.max(...lastRunTimes) (src/main.js lines 2519-2520); the parser
never yields an empty list, so the empty case (JavaScript -Infinity) is
an arbitrary sentinel. -/
def maxRunTime (r : PrefetchRecord) : Int :=
  match r.lastRunTimes with
  | [] => -100000000000000000000
  | x :: xs => xs.foldl max x

/--
getPrefetchFiles (src/main.js lines 2453-2551), with the directory
modelled as none (absent) or the list of entries readdirSync returns.
Filters .pf names, returns early on an empty filter, then processes,
sorts descending by the most recent run time (a stable sort on a total
comparator, so equal to the engine sort), and reports counts.
-/
def getPrefetchFiles (env : ParseEnv) (dir : Option (List DirEntry)) : PrefetchResult :=
  match dir with
  | none =>
    { success := false, data := [],
      error := some "Prefetch directory not found. This system may not have prefetch enabled.",
      message := none, totalFiles := none, processedFiles := none }
  | some entries =>
    let files := entries.filter (fun e => isPfName e.name)
    if files.length = 0 then
      { success := true, data := [], error := none,
        message := some "No prefetch files found in directory.",
        totalFiles := none, processedFiles := none }
    else
      let (recs, c) := processLoop env files 0
      { success := true,
        data := List.insertionSort (fun a b => maxRunTime b ≤ maxRunTime a) recs,
        error := none, message := none,
        totalFiles := some files.length, processedFiles := some c }

/- ===== Helper lemmas ===== -/

theorem startsWithSeq_append {α : Type} [DecidableEq α] (xs zs : List α) :
    startsWithSeq xs (xs ++ zs) = true := by
  induction xs with
  | nil => rfl
  | cons x xs ih => simp [startsWithSeq, ih]

theorem containsSeq_of_startsWithSeq {α : Type} [DecidableEq α] {xs ys : List α}
    (h : startsWithSeq xs ys = true) : containsSeq xs ys = true := by
  cases ys with
  | nil =>
    cases xs with
    | nil => rfl
    | cons x xs => simp [startsWithSeq] at h
  | cons y ys => simp [containsSeq, h]

theorem containsSeq_append_mid {α : Type} [DecidableEq α] (a f b : List α) :
    containsSeq f (a ++ (f ++ b)) = true := by
  induction a with
  | nil => exact containsSeq_of_startsWithSeq (startsWithSeq_append f b)
  | cons x a ih =>
    cases h : f ++ (f ++ b) with
    | nil => simp_all [containsSeq]
    | cons z zs => simp [containsSeq, ih]

theorem strData_append (a b : String) : (a ++ b).data = a.data ++ b.data := by
  cases a; cases b; rfl

theorem strIncludes_append_mid (a f b : String) : strIncludes (a ++ f ++ b) f = true := by
  show containsSeq f.data (a ++ f ++ b).data = true
  rw [strData_append, strData_append, List.append_assoc]
  exact containsSeq_append_mid a.data f.data b.data

theorem strIncludes_refl (s : String) : strIncludes s s = true := by
  have h := strIncludes_append_mid "" s ""
  simpa using h

theorem lookupAssoc_eraseAssoc_self (l : List (String × TimerData)) (k : String) :
    lookupAssoc (eraseAssoc l k) k = none := by
  induction l with
  | nil => rfl
  | cons p rest ih =>
    obtain ⟨k', v'⟩ := p
    by_cases h : k' = k
    · simp [eraseAssoc, h, ih]
    · simp [eraseAssoc, lookupAssoc, h, ih]

/- ===== Shared concrete instances used to witness the claims ===== -/

/-- An elevated single-window environment with working fs. -/
def envOk : Env := { admin := true, windows := 1, deepFails := false }

/-- A fresh process state over an empty hosts file. -/
def stEmpty : SMState :=
  { hosts := [""], timers := [], scheduled := [], nextId := 0, expiredEvents := [] }

/-- A parse environment where the path regex finds nothing and no probed
process is running. -/
def penvNone : ParseEnv := { pathMatches := fun _ => none, running := fun _ => false }

/-- A state in which example.com is blocked and carries a 1d student-mode
timer started at instant 0 with timeout handle 0. -/
def stWithTimer : SMState :=
  { hosts := ["", "# # Blocked by Technician App", "127.0.0.1 example.com",
      "127.0.0.1 www.example.com", "0.0.0.0 example.com", "0.0.0.0 www.example.com", ""],
    timers := [("example.com", ⟨"example.com", "1d", 86400000, 0, 0⟩)],
    scheduled := [⟨0, "example.com", 86400000⟩],
    nextId := 1, expiredEvents := [] }

theorem unblockWebsite_no_timer (env : Env) (now : Int) (st : SMState) (url : String)
    (ha : env.admin = true) (hne : cleanUrl url ≠ "")
    (hlk : lookupAssoc st.timers (cleanUrl url) = none) :
    (unblockWebsite env now st url).1.isOk = true ∧
      (unblockWebsite env now st url).2.timers = st.timers := by
  simp only [unblockWebsite, ha, Bool.not_true, Bool.false_eq_true, if_false, hne, if_neg, hlk]
  split <;> exact ⟨rfl, rfl⟩

/--
C2. While an active timer for a canonical domain exists in the registry,
unblockWebsite rejects with a message containing the remaining-time string
and leaves the state unchanged; after cancelStudentMode for that domain
succeeds, the same unblockWebsite call succeeds.
-/
theorem c2_timer_exclusivity (env : Env) (now : Int) (st : SMState) (d : String)
    (td : TimerData)
    (ha : env.admin = true) (hcanon : cleanUrl d = d) (hne : d ≠ "")
    (hlk : lookupAssoc st.timers d = some td) :
    (∃ msg,
      unblockWebsite env now st d = (.error msg, st) ∧
      strIncludes msg (formatTimeRemaining (td.endTime - now)) = true) ∧
    (cancelStudentMode env now st d).1.isOk = true ∧
    (unblockWebsite env now (cancelStudentMode env now st d).2 d).1.isOk = true := by
  have hguard : unblockWebsite env now st d =
      (.error ("Cannot unblock \"" ++ d ++ "\" - Student mode is active! Time remaining: " ++
        formatTimeRemaining (td.endTime - now) ++
        ". The website will automatically unblock when the timer expires."), st) := by
    simp [unblockWebsite, ha, hcanon, hne, hlk]
  have hcne : cleanUrl d ≠ "" := by rw [hcanon]; exact hne
  have hlk1 : lookupAssoc
      ({ st with
        scheduled := st.scheduled.filter (fun t => t.id ≠ td.timeoutId),
        timers := eraseAssoc st.timers d } : SMState).timers (cleanUrl d) = none := by
    rw [hcanon]; exact lookupAssoc_eraseAssoc_self st.timers d
  have h1 := unblockWebsite_no_timer env now
    { st with
      scheduled := st.scheduled.filter (fun t => t.id ≠ td.timeoutId),
      timers := eraseAssoc st.timers d } d ha hcne hlk1
  have hcancel : cancelStudentMode env now st d =
      (match unblockWebsite env now
        { st with
          scheduled := st.scheduled.filter (fun t => t.id ≠ td.timeoutId),
          timers := eraseAssoc st.timers d } d with
      | (.error e, st2) => (.error ("Failed to cancel student mode: " ++ e), st2)
      | (.ok _, st2) =>
        (.ok ("Student mode cancelled for \"" ++ d ++ "\". Website is now accessible."), st2)) := by
    simp [cancelStudentMode, hlk]
  refine ⟨⟨_, hguard, strIncludes_append_mid _ _ _⟩, ?_⟩
  rcases hu : unblockWebsite env now
    { st with
      scheduled := st.scheduled.filter (fun t => t.id ≠ td.timeoutId),
      timers := eraseAssoc st.timers d } d with ⟨r, st2⟩
  rw [hu] at h1
  cases r with
  | error e => exact Bool.noConfusion h1.1
  | ok m =>
    rw [hcancel, hu]
    constructor
    · rfl
    · have hlk2 : lookupAssoc st2.timers (cleanUrl d) = none := by
        rw [hcanon]
        have := h1.2
        simp at this
        rw [this]
        exact lookupAssoc_eraseAssoc_self st.timers d
      exact (unblockWebsite_no_timer env now st2 d ha hcne hlk2).1

/-- Witness for C2 at example.com with a 1d timer queried at instant 3000. -/
theorem c2_timer_exclusivity_witness :
    (envOk.admin = true ∧ cleanUrl "example.com" = "example.com" ∧
      ("example.com" : String) ≠ "" ∧
      lookupAssoc stWithTimer.timers "example.com" =
        some ⟨"example.com", "1d", 86400000, 0, 0⟩) ∧
    ((∃ msg,
      unblockWebsite envOk 3000 stWithTimer "example.com" = (.error msg, stWithTimer) ∧
      strIncludes msg
        (formatTimeRemaining ((⟨"example.com", "1d", 86400000, 0, 0⟩ : TimerData).endTime -
          3000)) = true) ∧
    (cancelStudentMode envOk 3000 stWithTimer "example.com").1.isOk = true ∧
    (unblockWebsite envOk 3000 (cancelStudentMode envOk 3000 stWithTimer "example.com").2
      "example.com").1.isOk = true) :=
  ⟨⟨rfl, by decide, by decide, by decide⟩,
   c2_timer_exclusivity envOk 3000 stWithTimer "example.com" ⟨"example.com", "1d", 86400000, 0, 0⟩
     rfl (by decide) (by decide) (by decide)⟩

theorem blockWebsite_preserves (env : Env) (st : SMState) (u : String) :
    (blockWebsite env st u).2.timers = st.timers ∧
    (blockWebsite env st u).2.scheduled = st.scheduled ∧
    (blockWebsite env st u).2.nextId = st.nextId ∧
    (blockWebsite env st u).2.expiredEvents = st.expiredEvents := by
  simp only [blockWebsite]
  repeat' split
  all_goals exact ⟨rfl, rfl, rfl, rfl⟩

theorem blockWebsite_ok (env : Env) (st : SMState) (u : String)
    (ha : env.admin = true) (hne : u ≠ "") (hc : cleanUrl u ≠ "") :
    (blockWebsite env st u).1.isOk = true := by
  simp only [blockWebsite, ha, Bool.not_true, Bool.false_eq_true, if_false, hne, if_neg, hc]
  split <;> rfl

theorem blockWebsiteDeep_ok_preserves (env : Env) (st : SMState) (u : String)
    (ha : env.admin = true) (h1 : cleanUrl u ≠ "") (h2 : cleanUrl (cleanUrl u) ≠ "") :
    (blockWebsiteDeep env st u).1.isOk = true ∧
    (blockWebsiteDeep env st u).2.timers = st.timers ∧
    (blockWebsiteDeep env st u).2.scheduled = st.scheduled ∧
    (blockWebsiteDeep env st u).2.nextId = st.nextId ∧
    (blockWebsiteDeep env st u).2.expiredEvents = st.expiredEvents := by
  have hbp := blockWebsite_preserves env st (cleanUrl u)
  have hbo := blockWebsite_ok env st (cleanUrl u) ha h1 h2
  simp only [blockWebsiteDeep, ha, Bool.not_true, Bool.false_eq_true, if_false, h1, if_neg]
  rcases hb : blockWebsite env st (cleanUrl u) with ⟨r, st'⟩
  rw [hb] at hbp hbo
  cases r with
  | error e => exact Bool.noConfusion hbo
  | ok m =>
    obtain ⟨hT, hS, hN, hE⟩ := hbp
    by_cases hdf : env.deepFails
    · simp only [hdf, if_true]
      exact ⟨rfl, hT, hS, hN, hE⟩
    · simp only [hdf, Bool.false_eq_true, if_false]
      split <;> exact ⟨rfl, hT, hS, hN, hE⟩

theorem studentMode_ok_fields (env : Env) (now : Int) (st : SMState) (url dur : String)
    (ha : env.admin = true) (hdur : parseDuration dur ≠ 0)
    (h1 : cleanUrl url ≠ "") (h2 : cleanUrl (cleanUrl url) ≠ "") :
    (blockWebsiteStudentMode env now st url dur).1.isOk = true ∧
    (blockWebsiteStudentMode env now st url dur).2.timers =
      setAssoc st.timers url
        ⟨url, dur, now + (parseDuration dur : Int), now, st.nextId⟩ ∧
    (blockWebsiteStudentMode env now st url dur).2.scheduled =
      st.scheduled ++ [⟨st.nextId, url, now + (parseDuration dur : Int)⟩] ∧
    (blockWebsiteStudentMode env now st url dur).2.nextId = st.nextId + 1 := by
  have hd := blockWebsiteDeep_ok_preserves env st url ha h1 h2
  simp only [blockWebsiteStudentMode, ha, Bool.not_true, Bool.false_eq_true, if_false,
    hdur, if_neg]
  rcases hb : blockWebsiteDeep env st url with ⟨r, st'⟩
  rw [hb] at hd
  cases r with
  | error e => exact Bool.noConfusion hd.1
  | ok m =>
    obtain ⟨_, hT, hS, hN, _⟩ := hd
    have hT' : st'.timers = st.timers := hT
    have hS' : st'.scheduled = st.scheduled := hS
    have hN' : st'.nextId = st.nextId := hN
    simp only [hT', hS', hN']
    exact ⟨rfl, trivial, trivial, trivial⟩

theorem lookupAssoc_setAssoc_self (l : List (String × TimerData)) (k : String)
    (v : TimerData) : lookupAssoc (setAssoc l k v) k = some v := by
  induction l with
  | nil => simp [setAssoc, lookupAssoc]
  | cons p rest ih =>
    obtain ⟨k', v'⟩ := p
    by_cases h : k' = k
    · simp [setAssoc, h, lookupAssoc]
    · simp [setAssoc, lookupAssoc, h, ih]

/--
C1. The claim says a fired expiry removes the domain's hosts entries,
purges the registry entry, and broadcasts the expiry event once. The code
does the opposite for a canonical input: the callback awaits
unblockWebsite while the registry entry is still present, so the
student-mode guard inside unblockWebsite rejects the call, the catch only
logs, and the hosts entries, the registry entry and the missing broadcast
all remain wrong. This theorem evaluates the scenario
blockWebsiteStudentMode("y.com", "10sec") with the timer firing on
schedule at instant 10000.
-/
theorem c1_expiry_auto_unblock_bug :
    (blockWebsiteStudentMode envOk 0 stEmpty "y.com" "10sec").1.isOk = true ∧
    (blockWebsiteStudentMode envOk 0 stEmpty "y.com" "10sec").2.scheduled =
      [⟨0, "y.com", 10000⟩] ∧
    lookupAssoc
      (fireExpiry envOk 10000 (blockWebsiteStudentMode envOk 0 stEmpty "y.com" "10sec").2
        ⟨0, "y.com", 10000⟩).timers "y.com" =
      some ⟨"y.com", "10sec", 10000, 0, 0⟩ ∧
    hostsIncludes
      (fireExpiry envOk 10000 (blockWebsiteStudentMode envOk 0 stEmpty "y.com" "10sec").2
        ⟨0, "y.com", 10000⟩).hosts "127.0.0.1 y.com" = true ∧
    (fireExpiry envOk 10000 (blockWebsiteStudentMode envOk 0 stEmpty "y.com" "10sec").2
      ⟨0, "y.com", 10000⟩).expiredEvents = [] := by
  decide

/--
C3 counterexample. Blocking "https://www.example.com/x" in student mode
registers the timer under the raw string, not under the canonical domain
"example.com"; and a second call for the same input appends a second
pending expiry handle while the first one stays scheduled (it is never
cleared).
-/
theorem c3_counterexample_raw_key :
    lookupAssoc
      (blockWebsiteStudentMode envOk 0 stEmpty "https://www.example.com/x" "1d").2.timers
      "example.com" = none ∧
    (lookupAssoc
      (blockWebsiteStudentMode envOk 0 stEmpty "https://www.example.com/x" "1d").2.timers
      "https://www.example.com/x").isSome = true ∧
    (blockWebsiteStudentMode envOk 5
        (blockWebsiteStudentMode envOk 0 stEmpty "https://www.example.com/x" "1d").2
        "https://www.example.com/x" "1d").2.scheduled =
      [⟨0, "https://www.example.com/x", 86400000⟩,
       ⟨1, "https://www.example.com/x", 86400005⟩] := by
  decide

/--
C3 amended. blockWebsiteStudentMode registers its timer entry keyed by the
raw input string (no canonicalisation); a repeated call with the same
input replaces the registry entry (setAssoc on the same key), but only
appends a new expiry handle — the previously pending handle is left
scheduled, not cancelled.
-/
theorem c3_amended_raw_key (env : Env) (now : Int) (st : SMState) (url dur : String)
    (ha : env.admin = true) (hdur : parseDuration dur ≠ 0)
    (h1 : cleanUrl url ≠ "") (h2 : cleanUrl (cleanUrl url) ≠ "") :
    (blockWebsiteStudentMode env now st url dur).1.isOk = true ∧
    (blockWebsiteStudentMode env now st url dur).2.timers =
      setAssoc st.timers url
        ⟨url, dur, now + (parseDuration dur : Int), now, st.nextId⟩ ∧
    (blockWebsiteStudentMode env now st url dur).2.scheduled =
      st.scheduled ++ [⟨st.nextId, url, now + (parseDuration dur : Int)⟩] ∧
    (blockWebsiteStudentMode env now st url dur).2.nextId = st.nextId + 1 :=
  studentMode_ok_fields env now st url dur ha hdur h1 h2

/-- Witness for the amended C3 at the non-canonical input
"https://www.example.com/x" with duration "1d". -/
theorem c3_amended_raw_key_witness :
    (envOk.admin = true ∧ parseDuration "1d" ≠ 0 ∧
      cleanUrl "https://www.example.com/x" ≠ "" ∧
      cleanUrl (cleanUrl "https://www.example.com/x") ≠ "") ∧
    ((blockWebsiteStudentMode envOk 0 stEmpty "https://www.example.com/x" "1d").1.isOk = true ∧
    (blockWebsiteStudentMode envOk 0 stEmpty "https://www.example.com/x" "1d").2.timers =
      setAssoc stEmpty.timers "https://www.example.com/x"
        ⟨"https://www.example.com/x", "1d", 0 + (parseDuration "1d" : Int), 0,
          stEmpty.nextId⟩ ∧
    (blockWebsiteStudentMode envOk 0 stEmpty "https://www.example.com/x" "1d").2.scheduled =
      stEmpty.scheduled ++
        [⟨stEmpty.nextId, "https://www.example.com/x", 0 + (parseDuration "1d" : Int)⟩] ∧
    (blockWebsiteStudentMode envOk 0 stEmpty "https://www.example.com/x" "1d").2.nextId =
      stEmpty.nextId + 1) :=
  ⟨⟨rfl, by decide, by decide, by decide⟩,
   c3_amended_raw_key envOk 0 stEmpty "https://www.example.com/x" "1d" rfl (by decide)
     (by decide) (by decide)⟩

/-- An elevated single-window environment where the deep-entry fs section
throws. -/
def envDeepFail : Env := { admin := true, windows := 1, deepFails := true }

/--
C10. When the basic hosts-file block succeeds, blockWebsiteDeep resolves
with success even though the deep-entry write throws (it downgrades to a
"blocked (basic level)" success and its final state is exactly the basic
block's state), so blockWebsiteStudentMode reports success and registers
its timer with only the basic block applied. (Failures of the DNS command
sequence are swallowed per command inside the callback and cannot reach
the result at all.)
-/
theorem c10_basic_level_downgrade (env : Env) (now : Int) (st : SMState) (url dur : String)
    (ha : env.admin = true) (hdf : env.deepFails = true)
    (h1 : cleanUrl url ≠ "") (h2 : cleanUrl (cleanUrl url) ≠ "")
    (hdur : parseDuration dur ≠ 0) :
    (blockWebsiteDeep env st url).1 =
      .ok ("Website \"" ++ cleanUrl url ++
        "\" has been blocked (basic level due to deep blocking error).") ∧
    (blockWebsiteDeep env st url).2 = (blockWebsite env st (cleanUrl url)).2 ∧
    (blockWebsiteStudentMode env now st url dur).1.isOk = true ∧
    lookupAssoc (blockWebsiteStudentMode env now st url dur).2.timers url =
      some ⟨url, dur, now + (parseDuration dur : Int), now, st.nextId⟩ := by
  have hsm := studentMode_ok_fields env now st url dur ha hdur h1 h2
  have hbo := blockWebsite_ok env st (cleanUrl url) ha h1 h2
  refine ⟨?_, ?_, hsm.1, ?_⟩
  · simp only [blockWebsiteDeep, ha, Bool.not_true, Bool.false_eq_true, if_false, h1, if_neg]
    rcases hb : blockWebsite env st (cleanUrl url) with ⟨r, st'⟩
    rw [hb] at hbo
    cases r with
    | error e => exact Bool.noConfusion hbo
    | ok m => simp only [hdf, if_true]
  · simp only [blockWebsiteDeep, ha, Bool.not_true, Bool.false_eq_true, if_false, h1, if_neg]
    rcases hb : blockWebsite env st (cleanUrl url) with ⟨r, st'⟩
    rw [hb] at hbo
    cases r with
    | error e => exact Bool.noConfusion hbo
    | ok m => simp only [hdf, if_true]
  · rw [hsm.2.1]
    exact lookupAssoc_setAssoc_self st.timers url _

/-- Witness for C10 at x.com blocked for 10sec with a failing deep-entry
write. -/
theorem c10_basic_level_downgrade_witness :
    (envDeepFail.admin = true ∧ envDeepFail.deepFails = true ∧
      cleanUrl "x.com" ≠ "" ∧ cleanUrl (cleanUrl "x.com") ≠ "" ∧
      parseDuration "10sec" ≠ 0) ∧
    ((blockWebsiteDeep envDeepFail stEmpty "x.com").1 =
      .ok ("Website \"" ++ cleanUrl "x.com" ++
        "\" has been blocked (basic level due to deep blocking error).") ∧
    (blockWebsiteDeep envDeepFail stEmpty "x.com").2 =
      (blockWebsite envDeepFail stEmpty (cleanUrl "x.com")).2 ∧
    (blockWebsiteStudentMode envDeepFail 0 stEmpty "x.com" "10sec").1.isOk = true ∧
    lookupAssoc (blockWebsiteStudentMode envDeepFail 0 stEmpty "x.com" "10sec").2.timers
      "x.com" =
      some ⟨"x.com", "10sec", 0 + (parseDuration "10sec" : Int), 0, stEmpty.nextId⟩) :=
  ⟨⟨rfl, rfl, by decide, by decide, by decide⟩,
   c10_basic_level_downgrade envDeepFail 0 stEmpty "x.com" "10sec" rfl rfl (by decide)
     (by decide) (by decide)⟩

theorem statusLoop_not_mem (now : Int) (l : List (String × TimerData)) (url : String)
    (h : url ∉ l.map Prod.fst) :
    lookupAssoc (statusLoop now l).2.1 url = none ∧
    ∀ s ∈ (statusLoop now l).1, s.websiteUrl ≠ url := by
  induction l with
  | nil => exact ⟨rfl, by simp [statusLoop]⟩
  | cons p rest ih =>
    obtain ⟨k, v⟩ := p
    simp only [List.map_cons, List.mem_cons, not_or] at h
    obtain ⟨hk, hrest⟩ := h
    obtain ⟨ih1, ih2⟩ := ih hrest
    simp only [statusLoop]
    rcases hsl : statusLoop now rest with ⟨snaps, keep, cleared⟩
    rw [hsl] at ih1 ih2
    by_cases hpos : v.endTime - now > 0
    · rw [if_pos hpos]
      constructor
      · show lookupAssoc ((k, v) :: keep) url = none
        simp only [lookupAssoc]
        rw [if_neg (fun he => hk he.symm)]
        exact ih1
      · intro s hs
        rcases List.mem_cons.mp hs with hh | ht
        · rw [hh]
          exact fun he => hk he.symm
        · exact ih2 s ht
    · rw [if_neg hpos]
      exact ⟨ih1, ih2⟩

theorem statusLoop_stale (now : Int) (l : List (String × TimerData)) (url : String)
    (td : TimerData) (hnd : (l.map Prod.fst).Nodup) (hmem : (url, td) ∈ l)
    (hstale : td.endTime - now ≤ 0) :
    lookupAssoc (statusLoop now l).2.1 url = none ∧
    (∀ s ∈ (statusLoop now l).1, s.websiteUrl ≠ url) ∧
    td.timeoutId ∈ (statusLoop now l).2.2 := by
  induction l with
  | nil => cases hmem
  | cons p rest ih =>
    obtain ⟨k, v⟩ := p
    simp only [List.map_cons, List.nodup_cons] at hnd
    obtain ⟨hknotin, hndr⟩ := hnd
    simp only [statusLoop]
    rcases hsl : statusLoop now rest with ⟨snaps, keep, cleared⟩
    rcases List.mem_cons.mp hmem with hh | ht
    · cases hh
      rw [if_neg (by omega : ¬(td.endTime - now > 0))]
      have hnm := statusLoop_not_mem now rest url hknotin
      rw [hsl] at hnm
      exact ⟨hnm.1, hnm.2, List.mem_cons_self _ _⟩
    · have hkne : k ≠ url := by
        intro he
        exact hknotin (he ▸ (List.mem_map.mpr ⟨(url, td), ht, rfl⟩))
      obtain ⟨ih1, ih2, ih3⟩ := ih hndr ht
      rw [hsl] at ih1 ih2 ih3
      by_cases hpos : v.endTime - now > 0
      · rw [if_pos hpos]
        refine ⟨?_, ?_, ih3⟩
        · show lookupAssoc ((k, v) :: keep) url = none
          simp only [lookupAssoc]
          rw [if_neg hkne]
          exact ih1
        · intro s hs
          rcases List.mem_cons.mp hs with hh2 | ht2
          · rw [hh2]; exact hkne
          · exact ih2 s ht2
      · rw [if_neg hpos]
        exact ⟨ih1, ih2, List.mem_cons_of_mem _ ih3⟩

theorem statusLoop_fresh (now : Int) (l : List (String × TimerData)) (url : String)
    (td : TimerData) (hnd : (l.map Prod.fst).Nodup) (hmem : (url, td) ∈ l)
    (hpos : 0 < td.endTime - now) :
    ({ websiteUrl := url, duration := td.duration, startTime := td.startTime,
       endTime := td.endTime, remainingMs := td.endTime - now,
       remainingFormatted := formatTimeRemaining (td.endTime - now) } : TimerSnapshot) ∈
      (statusLoop now l).1 ∧
    lookupAssoc (statusLoop now l).2.1 url = some td := by
  induction l with
  | nil => cases hmem
  | cons p rest ih =>
    obtain ⟨k, v⟩ := p
    simp only [List.map_cons, List.nodup_cons] at hnd
    obtain ⟨hknotin, hndr⟩ := hnd
    simp only [statusLoop]
    rcases hsl : statusLoop now rest with ⟨snaps, keep, cleared⟩
    rcases List.mem_cons.mp hmem with hh | ht
    · cases hh
      rw [if_pos hpos]
      constructor
      · exact List.mem_cons_self _ _
      · show lookupAssoc ((url, td) :: keep) url = some td
        simp [lookupAssoc]
    · have hkne : k ≠ url := by
        intro he
        exact hknotin (he ▸ (List.mem_map.mpr ⟨(url, td), ht, rfl⟩))
      obtain ⟨ih1, ih2⟩ := ih hndr ht
      rw [hsl] at ih1 ih2
      by_cases hv : v.endTime - now > 0
      · rw [if_pos hv]
        refine ⟨List.mem_cons_of_mem _ ih1, ?_⟩
        show lookupAssoc ((k, v) :: keep) url = some td
        simp only [lookupAssoc]
        rw [if_neg hkne]
        exact ih2
      · rw [if_neg hv]
        exact ⟨ih1, ih2⟩

/--
C9. For any registry (with the Map's unique-key invariant): an entry whose
endTime has passed when getStudentModeStatus runs is purged from the
registry, never appears among the returned snapshots, and its pending
deferred action is cancelled (no remaining scheduled task carries its
handle); an entry with positive remaining time is returned annotated with
the remaining-time string and survives in the registry.
-/
theorem c9_stale_timer_cleanup (now : Int) (st : SMState) (url : String) (td : TimerData)
    (hnd : (st.timers.map Prod.fst).Nodup) (hmem : (url, td) ∈ st.timers) :
    (td.endTime - now ≤ 0 →
      lookupAssoc (getStudentModeStatus now st).2.timers url = none ∧
      (∀ s ∈ (getStudentModeStatus now st).1.1, s.websiteUrl ≠ url) ∧
      (∀ t ∈ (getStudentModeStatus now st).2.scheduled, t.id ≠ td.timeoutId)) ∧
    (0 < td.endTime - now →
      ({ websiteUrl := url, duration := td.duration, startTime := td.startTime,
         endTime := td.endTime, remainingMs := td.endTime - now,
         remainingFormatted := formatTimeRemaining (td.endTime - now) } : TimerSnapshot) ∈
        (getStudentModeStatus now st).1.1 ∧
      lookupAssoc (getStudentModeStatus now st).2.timers url = some td) := by
  constructor
  · intro hstale
    have h := statusLoop_stale now st.timers url td hnd hmem hstale
    rcases hsl : statusLoop now st.timers with ⟨snaps, keep, cleared⟩
    rw [hsl] at h
    obtain ⟨h1, h2, h3⟩ := h
    refine ⟨?_, ?_, ?_⟩
    · simp only [getStudentModeStatus, hsl]
      exact h1
    · simp only [getStudentModeStatus, hsl]
      exact h2
    · simp only [getStudentModeStatus, hsl]
      intro t ht
      have := List.mem_filter.mp ht
      intro he
      rw [he] at this
      simp only [Bool.not_eq_true'] at this
      have hcon : cleared.contains td.timeoutId = true :=
        List.elem_eq_true_of_mem h3
      rw [this.2] at hcon
      exact Bool.noConfusion hcon
  · intro hpos
    have h := statusLoop_fresh now st.timers url td hnd hmem hpos
    rcases hsl : statusLoop now st.timers with ⟨snaps, keep, cleared⟩
    rw [hsl] at h
    constructor
    · simp only [getStudentModeStatus, hsl]
      exact h.1
    · simp only [getStudentModeStatus, hsl]
      exact h.2

/-- A state with a stale timer for a (endTime 5, handle 7) and a live
timer for b (endTime 100, handle 8). -/
def stTwoTimers : SMState :=
  { hosts := [""],
    timers := [("a", ⟨"a", "10sec", 5, 0, 7⟩), ("b", ⟨"b", "1d", 100, 0, 8⟩)],
    scheduled := [⟨7, "a", 5⟩, ⟨8, "b", 100⟩],
    nextId := 9, expiredEvents := [] }

/-- Witness for C9: at instant 10, timer a (endTime 5) is stale. -/
theorem c9_stale_timer_cleanup_witness :
    ((stTwoTimers.timers.map Prod.fst).Nodup ∧
      (("a", (⟨"a", "10sec", 5, 0, 7⟩ : TimerData)) ∈ stTwoTimers.timers)) ∧
    (((⟨"a", "10sec", 5, 0, 7⟩ : TimerData).endTime - 10 ≤ 0 →
      lookupAssoc (getStudentModeStatus 10 stTwoTimers).2.timers "a" = none ∧
      (∀ s ∈ (getStudentModeStatus 10 stTwoTimers).1.1, s.websiteUrl ≠ "a") ∧
      (∀ t ∈ (getStudentModeStatus 10 stTwoTimers).2.scheduled,
        t.id ≠ (⟨"a", "10sec", 5, 0, 7⟩ : TimerData).timeoutId)) ∧
    (0 < (⟨"a", "10sec", 5, 0, 7⟩ : TimerData).endTime - 10 →
      ({ websiteUrl := "a", duration := "10sec", startTime := 0, endTime := 5,
         remainingMs := (5 : Int) - 10,
         remainingFormatted := formatTimeRemaining ((5 : Int) - 10) } : TimerSnapshot) ∈
        (getStudentModeStatus 10 stTwoTimers).1.1 ∧
      lookupAssoc (getStudentModeStatus 10 stTwoTimers).2.timers "a" =
        some ⟨"a", "10sec", 5, 0, 7⟩)) :=
  ⟨⟨by decide, by decide⟩,
   c9_stale_timer_cleanup 10 stTwoTimers "a" ⟨"a", "10sec", 5, 0, 7⟩ (by decide) (by decide)⟩

theorem collectRunTimes_length_le (buf : List Nat) (i n : Nat) :
    (collectRunTimes buf i n).length ≤ n := by
  induction n generalizing i with
  | zero => simp [collectRunTimes]
  | succ n ih =>
    simp only [collectRunTimes]
    split
    · split
      · split
        · exact Nat.succ_le_succ (ih (i + 1))
        · exact Nat.le_succ_of_le (ih (i + 1))
      · exact Nat.le_succ_of_le (ih (i + 1))
    · exact Nat.le_succ_of_le (ih (i + 1))

theorem oldVersionRunTimes_length_le (buf : List Nat) :
    (oldVersionRunTimes buf).length ≤ 1 := by
  simp only [oldVersionRunTimes]
  split
  · split <;> simp
  · simp

theorem parsePrefetchInner_bounds (env : ParseEnv) (buf : List Nat) (version : Nat)
    (e : String) (stats : FileStats) :
    1 ≤ (parsePrefetchInner env buf version e stats).1 ∧
    (parsePrefetchInner env buf version e stats).1 ≤ 10000 ∧
    1 ≤ (parsePrefetchInner env buf version e stats).2.1.length := by
  simp only [parsePrefetchInner]
  split
  · simp
  · rename_i rawCount heq
    set times0 := if version ≥ 26 then collectRunTimes buf 0 (min 8 rawCount)
      else oldVersionRunTimes buf with htimes0
    have hlen0 : times0.length ≤ 8 := by
      rw [htimes0]
      split
      · exact le_trans (collectRunTimes_length_le buf 0 (min 8 rawCount))
          (le_trans (Nat.min_le_left _ _) (by norm_num))
      · exact le_trans (oldVersionRunTimes_length_le buf) (by norm_num)
    by_cases hemp : times0.isEmpty
    · simp only [hemp, if_true]
      split
      · simp
      · rename_i hraw
        push_neg at hraw
        simp only [List.length_cons, List.length_nil]
        omega
    · simp only [hemp, Bool.false_eq_true, if_false]
      have hpos : 0 < times0.length := by
        cases h0 : times0 with
        | nil => rw [h0] at hemp; exact absurd rfl hemp
        | cons a l => simp [h0]
      split
      · rw [if_neg (by omega)]
        refine ⟨hpos, by omega, hpos⟩
      · rename_i hraw
        push_neg at hraw
        refine ⟨by omega, by omega, hpos⟩

/--
C4. For every buffer, filename, and stat block — and for every outcome of
the external path-regex scan and process probe — parsePrefetchFileBuffer
either returns null or returns a record with 1 ≤ runCount ≤ 10000 and at
least one lastRunTimes entry. The embedding is a total function, which is
the shape of "never throws": every DataView read past the end of the
buffer is modelled as the caught exception path the source takes.
-/
theorem c4_parse_bounds (env : ParseEnv) (buf : List Nat) (filename : String)
    (stats : FileStats) (r : PrefetchRecord)
    (h : parsePrefetchFileBuffer env buf filename stats = some r) :
    1 ≤ r.runCount ∧ r.runCount ≤ 10000 ∧ 1 ≤ r.lastRunTimes.length := by
  simp only [parsePrefetchFileBuffer] at h
  rcases hv : readU32le buf 0 with _ | version
  · rw [hv] at h
    exact Option.noConfusion h
  · rw [hv] at h
    simp only at h
    have hb := parsePrefetchInner_bounds env buf version
      ((pfStem filename).getD (stripPfExt filename)) stats
    have hr := Option.some.inj h
    rw [← hr]
    refine ⟨hb.1, hb.2.1, ?_⟩
    show 1 ≤ (sortDescInt _).length
    simp only [sortDescInt, List.length_insertionSort]
    exact hb.2.2

/-- The record produced for a 4-byte version-17 buffer named a.pf with
mtime 0 (all reads past the header fall back). -/
def recA : PrefetchRecord :=
  { executableName := "A", runCount := 1, lastRunTimes := [0],
    filePaths := ["C:\\Windows\\System32\\a.exe"],
    volumeInfo := [{ volumePath := "C:\\", volumeSerial := "Unknown", creationTime := 0 }],
    size := 4, prefetchPath := "a.pf", hash := "Unknown", fileCreated := 0,
    fileModified := 0, version := 17, isCurrentlyRunning := false }

/-- The same for b.pf. -/
def recB : PrefetchRecord :=
  { executableName := "B", runCount := 1, lastRunTimes := [0],
    filePaths := ["C:\\Windows\\System32\\b.exe"],
    volumeInfo := [{ volumePath := "C:\\", volumeSerial := "Unknown", creationTime := 0 }],
    size := 4, prefetchPath := "b.pf", hash := "Unknown", fileCreated := 0,
    fileModified := 0, version := 17, isCurrentlyRunning := false }

/-- Witness for C4 on the concrete buffer [17, 0, 0, 0]. -/
theorem c4_parse_bounds_witness :
    parsePrefetchFileBuffer penvNone [17, 0, 0, 0] "a.pf" ⟨0, none⟩ = some recA ∧
    (1 ≤ recA.runCount ∧ recA.runCount ≤ 10000 ∧ 1 ≤ recA.lastRunTimes.length) :=
  ⟨by decide,
   c4_parse_bounds penvNone [17, 0, 0, 0] "a.pf" ⟨0, none⟩ recA (by decide)⟩

theorem yearOfEpochMs_big (t : Int) (h : t > 8640000000000000) :
    yearOfEpochMs t > 2050 := by
  simp only [yearOfEpochMs]
  rw [Int.fdiv_eq_ediv _ (by norm_num), Int.fdiv_eq_ediv _ (by norm_num),
    Int.fdiv_eq_ediv _ (by norm_num), Int.fdiv_eq_ediv _ (by norm_num),
    Int.fdiv_eq_ediv _ (by norm_num), Int.fdiv_eq_ediv _ (by norm_num),
    Int.fdiv_eq_ediv _ (by norm_num), Int.fdiv_eq_ediv _ (by norm_num)]
  split <;> omega

/--
C5. windowsFileTimeToDate computes ticks/10000 - 11644473600000
(integer division) whenever it returns a value; it returns null exactly
when the millisecond value underflows the Unix epoch or the resulting
calendar year falls outside [1970, 2050] (the ECMAScript invalid-Date
cutoff at 8.64e15 ms is subsumed by year > 2050); and for every
millisecond timestamp T whose year lies in [1970, 2050], the round trip
through FILETIME ticks returns exactly T (well within the claim's 1 ms).
-/
theorem c5_filetime_roundtrip :
    (∀ ft : Nat, windowsFileTimeToDate ft = none ∨
      windowsFileTimeToDate ft = some (((ft / 10000 : Nat) : Int) - 11644473600000)) ∧
    (∀ ft : Nat, windowsFileTimeToDate ft = none ↔
      (ft / 10000 < 11644473600000 ∨
       yearOfEpochMs (((ft / 10000 : Nat) : Int) - 11644473600000) < 1970 ∨
       yearOfEpochMs (((ft / 10000 : Nat) : Int) - 11644473600000) > 2050)) ∧
    (∀ T : Nat, 1970 ≤ yearOfEpochMs (T : Int) → yearOfEpochMs (T : Int) ≤ 2050 →
      windowsFileTimeToDate ((T + 11644473600000) * 10000) = some (T : Int)) := by
  refine ⟨?_, ?_, ?_⟩
  · intro ft
    simp only [windowsFileTimeToDate]
    split_ifs with h1 h2 h3
    · exact Or.inl rfl
    · exact Or.inl rfl
    · exact Or.inl rfl
    · exact Or.inr rfl
  · intro ft
    simp only [windowsFileTimeToDate]
    split_ifs with h1 h2 h3
    · simp [h1]
    · have hy := yearOfEpochMs_big (((ft / 10000 : Nat) : Int) - 11644473600000) (by omega)
      simp only [true_iff]
      right; right; exact hy
    · simp only [true_iff]
      rcases h3 with h3 | h3
      · right; left; exact h3
      · right; right; exact h3
    · simp only [false_iff, not_or]
      push_neg at h3
      exact ⟨h1, by omega, by omega⟩
  · intro T hy1 hy2
    have hms : (T + 11644473600000) * 10000 / 10000 = T + 11644473600000 :=
      Nat.mul_div_cancel _ (by norm_num)
    simp only [windowsFileTimeToDate, hms]
    rw [if_neg (by omega)]
    have hcast : ((T + 11644473600000 : Nat) : Int) - 11644473600000 = (T : Int) := by
      push_cast
      ring
    rw [hcast]
    have hbound : ¬((T : Int) > 8640000000000000) := by
      intro hgt
      have := yearOfEpochMs_big (T : Int) hgt
      omega
    rw [if_neg hbound]
    rw [if_neg (by omega)]

/-- Witness for C5's round trip at T = 1234567890123 (a 2009 date). -/
theorem c5_filetime_roundtrip_witness :
    (1970 ≤ yearOfEpochMs ((1234567890123 : Nat) : Int) ∧
      yearOfEpochMs ((1234567890123 : Nat) : Int) ≤ 2050) ∧
    windowsFileTimeToDate ((1234567890123 + 11644473600000) * 10000) =
      some ((1234567890123 : Nat) : Int) :=
  ⟨⟨by decide, by decide⟩,
   c5_filetime_roundtrip.2.2 1234567890123 (by decide) (by decide)⟩

/-- The record a directory entry yields, if any: none when its read throws
or its parse returns null. -/
def parseOfEntry (env : ParseEnv) (e : DirEntry) : Option PrefetchRecord :=
  match e.content with
  | some (buf, stats) => parsePrefetchFileBuffer env buf e.name stats
  | none => none

/-- The records the loop should produce, in directory order. -/
def successesOf (env : ParseEnv) (files : List DirEntry) : List PrefetchRecord :=
  files.filterMap (parseOfEntry env)

theorem processLoop_eq (env : ParseEnv) (files : List DirEntry) (c : Nat)
    (h : c + files.length ≤ 100) :
    processLoop env files c = (successesOf env files, c + (successesOf env files).length) := by
  induction files generalizing c with
  | nil => simp [processLoop, successesOf]
  | cons e rest ih =>
    simp only [List.length_cons] at h
    simp only [processLoop, successesOf, List.filterMap_cons]
    rcases hc : e.content with _ | ⟨buf, stats⟩
    · simp only [parseOfEntry, hc]
      exact ih c (by omega)
    · simp only [parseOfEntry, hc]
      rcases hp : parsePrefetchFileBuffer env buf e.name stats with _ | r
      · dsimp only
        rw [if_neg (by omega : ¬c ≥ 100)]
        exact ih c (by omega)
      · dsimp only
        by_cases hbreak : c + 1 ≥ 100
        · rw [if_pos hbreak]
          have hrest : rest.length = 0 := by omega
          have hrnil : rest = [] := List.length_eq_zero.mp hrest
          subst hrnil
          simp [successesOf]
        · rw [if_neg hbreak]
          rw [ih (c + 1) (by omega)]
          simp only [successesOf, List.length_cons]
          refine Prod.ext rfl ?_
          simp
          omega

/--
C6. For a directory whose .pf files number at most the 100-file cap and
at least one, getPrefetchFiles succeeds, returns exactly one record per
parseable file (a file whose read does not throw and whose parse is
non-null) in spite of the unparseable ones, and reports processedFiles
equal to that count. The embedding is total: no per-file failure aborts
the batch.
-/
theorem c6_batch_tolerance (env : ParseEnv) (entries : List DirEntry)
    (hne : 0 < (entries.filter (fun e => isPfName e.name)).length)
    (hcap : (entries.filter (fun e => isPfName e.name)).length ≤ 100) :
    (getPrefetchFiles env (some entries)).success = true ∧
    (getPrefetchFiles env (some entries)).data.length =
      (successesOf env (entries.filter (fun e => isPfName e.name))).length ∧
    (getPrefetchFiles env (some entries)).processedFiles =
      some (successesOf env (entries.filter (fun e => isPfName e.name))).length := by
  simp only [getPrefetchFiles]
  rw [if_neg (by omega)]
  rw [processLoop_eq env _ 0 (by omega)]
  refine ⟨rfl, ?_, ?_⟩
  · simp [List.length_insertionSort]
  · simp

/-- A directory listing with one parseable .pf file, one .pf file whose
read throws, and one non-.pf file. -/
def dirMixed : List DirEntry :=
  [⟨"a.pf", some ([17, 0, 0, 0], ⟨0, none⟩)⟩,
   ⟨"bad.pf", none⟩,
   ⟨"skip.txt", some ([1], ⟨0, none⟩)⟩]

/-- Witness for C6 on dirMixed: two .pf entries, one parseable. -/
theorem c6_batch_tolerance_witness :
    (0 < (dirMixed.filter (fun e => isPfName e.name)).length ∧
      (dirMixed.filter (fun e => isPfName e.name)).length ≤ 100) ∧
    ((getPrefetchFiles penvNone (some dirMixed)).success = true ∧
    (getPrefetchFiles penvNone (some dirMixed)).data.length =
      (successesOf penvNone (dirMixed.filter (fun e => isPfName e.name))).length ∧
    (getPrefetchFiles penvNone (some dirMixed)).processedFiles =
      some (successesOf penvNone (dirMixed.filter (fun e => isPfName e.name))).length) :=
  ⟨⟨by decide, by decide⟩, c6_batch_tolerance penvNone dirMixed (by decide) (by decide)⟩

instance maxRunTimeTotal :
    IsTotal PrefetchRecord (fun a b => maxRunTime b ≤ maxRunTime a) :=
  ⟨fun a b => le_total (maxRunTime b) (maxRunTime a)⟩

instance maxRunTimeTrans :
    IsTrans PrefetchRecord (fun a b => maxRunTime b ≤ maxRunTime a) :=
  ⟨fun _ _ _ hab hbc => le_trans hbc hab⟩

/--
C7. The record sequence getPrefetchFiles returns is sorted by
max(lastRunTimes) descending; the function is pure, so repeated calls on
the same input return the identical sequence (the claim's "stable across
repeated calls"); and moreover the sort itself is stable: any two records
in weakly descending key order in the processing output keep their
relative order in the result.
-/
theorem c7_sort_order (env : ParseEnv) (dir : Option (List DirEntry)) :
    List.Pairwise (fun a b => maxRunTime b ≤ maxRunTime a)
      (getPrefetchFiles env dir).data ∧
    getPrefetchFiles env dir = getPrefetchFiles env dir ∧
    (∀ (entries : List DirEntry) (a b : PrefetchRecord), dir = some entries →
      maxRunTime b ≤ maxRunTime a →
      [a, b].Sublist (processLoop env (entries.filter (fun e => isPfName e.name)) 0).1 →
      [a, b].Sublist (getPrefetchFiles env dir).data) := by
  refine ⟨?_, rfl, ?_⟩
  · rcases dir with _ | entries
    · simp [getPrefetchFiles]
    · simp only [getPrefetchFiles]
      split
      · simp
      · exact List.sorted_insertionSort _ _
  · intro entries a b hdir hab hsub
    subst hdir
    simp only [getPrefetchFiles]
    by_cases hlen : (entries.filter (fun e => isPfName e.name)).length = 0
    · rw [List.length_eq_zero.mp hlen] at hsub
      simp [processLoop] at hsub
    · rw [if_neg hlen]
      exact List.pair_sublist_insertionSort hab hsub

/-- Two 4-byte version-17 files with equal (fallback) run times. -/
def dirPair : List DirEntry :=
  [⟨"a.pf", some ([17, 0, 0, 0], ⟨0, none⟩)⟩,
   ⟨"b.pf", some ([17, 0, 0, 0], ⟨0, none⟩)⟩]

/-- Witness for C7: two records with equal sort keys keep their processing
order in the returned data. -/
theorem c7_sort_order_witness :
    (some dirPair = some dirPair ∧ maxRunTime recB ≤ maxRunTime recA ∧
      [recA, recB].Sublist
        (processLoop penvNone (dirPair.filter (fun e => isPfName e.name)) 0).1) ∧
    [recA, recB].Sublist (getPrefetchFiles penvNone (some dirPair)).data :=
  ⟨⟨rfl, by decide, by decide⟩,
   (c7_sort_order penvNone (some dirPair)).2.2 dirPair recA recB rfl (by decide) (by decide)⟩

theorem str_ne_of_head {a b : String} {ca cb : Char}
    (ha : a.data.head? = some ca) (hb : b.data.head? = some cb) (h : ca ≠ cb) : a ≠ b := by
  intro he
  rw [he] at ha
  rw [ha] at hb
  exact h (Option.some.inj hb)

theorem str_ne_of_len {a b : String} (h : a.data.length ≠ b.data.length) : a ≠ b := by
  intro he
  rw [he] at h
  exact h rfl

theorem head_append_lit (s d : String) (c : Char) (h : s.data.head? = some c) :
    (s ++ d).data.head? = some c := by
  rw [strData_append]
  cases hs : s.data with
  | nil => rw [hs] at h; exact Option.noConfusion h
  | cons x xs =>
    rw [hs] at h
    simpa using h

theorem len_append (s d : String) :
    (s ++ d).data.length = s.data.length + d.data.length := by
  rw [strData_append]
  exact List.length_append _ _

theorem bl_count (d : String) :
    (blockLines d).count ("127.0.0.1 " ++ d) = 1 ∧
    (blockLines d).count ("127.0.0.1 www." ++ d) = 1 ∧
    (blockLines d).count ("0.0.0.0 " ++ d) = 1 ∧
    (blockLines d).count ("0.0.0.0 www." ++ d) = 1 := by
  have hm1 : ("# # Blocked by Technician App" : String) ≠ "127.0.0.1 " ++ d :=
    str_ne_of_head rfl (head_append_lit _ d '1' rfl) (by decide)
  have hm2 : ("# # Blocked by Technician App" : String) ≠ "127.0.0.1 www." ++ d :=
    str_ne_of_head rfl (head_append_lit _ d '1' rfl) (by decide)
  have hm3 : ("# # Blocked by Technician App" : String) ≠ "0.0.0.0 " ++ d :=
    str_ne_of_head rfl (head_append_lit _ d '0' rfl) (by decide)
  have hm4 : ("# # Blocked by Technician App" : String) ≠ "0.0.0.0 www." ++ d :=
    str_ne_of_head rfl (head_append_lit _ d '0' rfl) (by decide)
  have hz1 : ("" : String) ≠ "127.0.0.1 " ++ d := by
    apply str_ne_of_len
    rw [len_append]
    show 0 ≠ 10 + d.data.length
    omega
  have hz2 : ("" : String) ≠ "127.0.0.1 www." ++ d := by
    apply str_ne_of_len
    rw [len_append]
    show 0 ≠ 14 + d.data.length
    omega
  have hz3 : ("" : String) ≠ "0.0.0.0 " ++ d := by
    apply str_ne_of_len
    rw [len_append]
    show 0 ≠ 8 + d.data.length
    omega
  have hz4 : ("" : String) ≠ "0.0.0.0 www." ++ d := by
    apply str_ne_of_len
    rw [len_append]
    show 0 ≠ 12 + d.data.length
    omega
  have h12 : ("127.0.0.1 " ++ d) ≠ "127.0.0.1 www." ++ d := by
    apply str_ne_of_len
    rw [len_append, len_append]
    show 10 + d.data.length ≠ 14 + d.data.length
    omega
  have h13 : ("127.0.0.1 " ++ d) ≠ "0.0.0.0 " ++ d := by
    apply str_ne_of_len
    rw [len_append, len_append]
    show 10 + d.data.length ≠ 8 + d.data.length
    omega
  have h14 : ("127.0.0.1 " ++ d) ≠ "0.0.0.0 www." ++ d := by
    apply str_ne_of_len
    rw [len_append, len_append]
    show 10 + d.data.length ≠ 12 + d.data.length
    omega
  have h23 : ("127.0.0.1 www." ++ d) ≠ "0.0.0.0 " ++ d := by
    apply str_ne_of_len
    rw [len_append, len_append]
    show 14 + d.data.length ≠ 8 + d.data.length
    omega
  have h24 : ("127.0.0.1 www." ++ d) ≠ "0.0.0.0 www." ++ d := by
    apply str_ne_of_len
    rw [len_append, len_append]
    show 14 + d.data.length ≠ 12 + d.data.length
    omega
  have h34 : ("0.0.0.0 " ++ d) ≠ "0.0.0.0 www." ++ d := by
    apply str_ne_of_len
    rw [len_append, len_append]
    show 8 + d.data.length ≠ 12 + d.data.length
    omega
  refine ⟨?_, ?_, ?_, ?_⟩ <;>
    simp [blockLines, List.count_cons, List.count_nil, hm1, hm2, hm3, hm4,
      hz1.symm, hz2.symm, hz3.symm, hz4.symm, h12, h12.symm, h13, h13.symm,
      h14, h14.symm, h23, h23.symm, h24, h24.symm, h34, h34.symm]

theorem hostsIncludes_of_mem {lines : List String} {l : String} (sub : String)
    (hl : l ∈ lines) (h : strIncludes l sub = true) : hostsIncludes lines sub = true :=
  List.any_eq_true.mpr ⟨l, hl, h⟩

theorem count_zero_of_not_includes {lines : List String} {s : String}
    (h : hostsIncludes lines s = false) : lines.count s = 0 := by
  rw [List.count_eq_zero]
  intro hmem
  rw [hostsIncludes_of_mem s hmem (strIncludes_refl s)] at h
  exact Bool.noConfusion h

/--
C8. blockWebsite is idempotent: starting from a hosts file not containing
the domain's binding strings, blocking twice answers "already blocked" the
second time and leaves each of the four binding lines in the hosts file
exactly once; and unblockWebsite on a domain with no matching hosts lines
and no active timer resolves with the "was not found / already unblocked"
message and removes nothing (the state is returned unchanged).
-/
theorem c8_idempotent_block_unblock (env : Env) (ha : env.admin = true) :
    (∀ (st : SMState) (d : String), cleanUrl d = d → d ≠ "" →
      hostsIncludes st.hosts ("127.0.0.1 " ++ d) = false →
      hostsIncludes st.hosts ("127.0.0.1 www." ++ d) = false →
      hostsIncludes st.hosts ("0.0.0.0 " ++ d) = false →
      hostsIncludes st.hosts ("0.0.0.0 www." ++ d) = false →
      ((blockWebsite env (blockWebsite env st d).2 d).1 =
        .ok ("Website \"" ++ d ++ "\" is already blocked") ∧
       (blockWebsite env (blockWebsite env st d).2 d).2.hosts.count ("127.0.0.1 " ++ d) = 1 ∧
       (blockWebsite env (blockWebsite env st d).2 d).2.hosts.count ("127.0.0.1 www." ++ d) = 1 ∧
       (blockWebsite env (blockWebsite env st d).2 d).2.hosts.count ("0.0.0.0 " ++ d) = 1 ∧
       (blockWebsite env (blockWebsite env st d).2 d).2.hosts.count ("0.0.0.0 www." ++ d) = 1)) ∧
    (∀ (now : Int) (st : SMState) (d : String), cleanUrl d = d → d ≠ "" →
      lookupAssoc st.timers d = none →
      (∀ l ∈ st.hosts, shouldRemoveLine d l = false) →
      unblockWebsite env now st d =
        (.ok ("Website \"" ++ d ++
          "\" was not found in the hosts file or was already unblocked"), st)) := by
  constructor
  · intro st d hc hne h1 h2 h3 h4
    have hb1 : blockWebsite env st d =
        (.ok ("Website \"" ++ d ++
          "\" has been blocked using the system hosts file. Changes take effect immediately."),
         { st with hosts := st.hosts ++ blockLines d }) := by
      simp [blockWebsite, ha, hc, hne, h1, h2]
    rw [hb1]
    have hmem : ("127.0.0.1 " ++ d) ∈ st.hosts ++ blockLines d := by
      simp [blockLines]
    have hinc : hostsIncludes (st.hosts ++ blockLines d) ("127.0.0.1 " ++ d) = true :=
      hostsIncludes_of_mem _ hmem (strIncludes_refl _)
    have hb2 : blockWebsite env ({ st with hosts := st.hosts ++ blockLines d }) d =
        (.ok ("Website \"" ++ d ++ "\" is already blocked"),
         { st with hosts := st.hosts ++ blockLines d }) := by
      simp [blockWebsite, ha, hc, hne, hinc]
    rw [hb2]
    have hcnt := bl_count d
    refine ⟨rfl, ?_, ?_, ?_, ?_⟩ <;>
      simp only [List.count_append, count_zero_of_not_includes h1,
        count_zero_of_not_includes h2, count_zero_of_not_includes h3,
        count_zero_of_not_includes h4, Nat.zero_add, hcnt.1, hcnt.2.1,
        hcnt.2.2.1, hcnt.2.2.2]
  · intro now st d hc hne hlk hall
    have hfil : st.hosts.filter (fun l => shouldRemoveLine d l) = [] :=
      List.filter_eq_nil_iff.mpr (fun l hl => by simp [hall l hl])
    simp [unblockWebsite, ha, hc, hne, hlk, hfil]

/-- Witness for C8 at x.com over the fresh empty-hosts state. -/
theorem c8_idempotent_block_unblock_witness :
    (envOk.admin = true ∧ cleanUrl "x.com" = "x.com" ∧ ("x.com" : String) ≠ "" ∧
      hostsIncludes stEmpty.hosts ("127.0.0.1 " ++ "x.com") = false ∧
      hostsIncludes stEmpty.hosts ("127.0.0.1 www." ++ "x.com") = false ∧
      hostsIncludes stEmpty.hosts ("0.0.0.0 " ++ "x.com") = false ∧
      hostsIncludes stEmpty.hosts ("0.0.0.0 www." ++ "x.com") = false ∧
      lookupAssoc stEmpty.timers "x.com" = none ∧
      (∀ l ∈ stEmpty.hosts, shouldRemoveLine "x.com" l = false)) ∧
    ((blockWebsite envOk (blockWebsite envOk stEmpty "x.com").2 "x.com").1 =
        .ok ("Website \"" ++ "x.com" ++ "\" is already blocked") ∧
      (blockWebsite envOk (blockWebsite envOk stEmpty "x.com").2
        "x.com").2.hosts.count ("127.0.0.1 " ++ "x.com") = 1) ∧
    unblockWebsite envOk 0 stEmpty "x.com" =
      (.ok ("Website \"" ++ "x.com" ++
        "\" was not found in the hosts file or was already unblocked"), stEmpty) :=
  ⟨⟨rfl, by decide, by decide, by decide, by decide, by decide, by decide, by decide,
    by decide⟩,
   ⟨((c8_idempotent_block_unblock envOk rfl).1 stEmpty "x.com" (by decide) (by decide)
      (by decide) (by decide) (by decide) (by decide)).1,
    ((c8_idempotent_block_unblock envOk rfl).1 stEmpty "x.com" (by decide) (by decide)
      (by decide) (by decide) (by decide) (by decide)).2.1⟩,
   (c8_idempotent_block_unblock envOk rfl).2 0 stEmpty "x.com" (by decide) (by decide)
     (by decide) (by decide)⟩

end Mark2
